import Mathlib

/-!
Verification of the krnl GPGPU compute runtime against its design
specification.  The Rust sources are shallowly embedded: pure functions
become Lean functions, host memory becomes lists of byte values
(naturals below 256), machine integers become naturals reduced modulo
`2 ^ w` where overflow matters, and fallible or panicking code returns
`Except` / `Option` (`none` models a panic).
-/

namespace Krnl

/-! ## Little-endian byte model of host memory -/

/-- The `w` little-endian bytes of `n` (low bytes first; high bits beyond
`w` bytes are discarded, as in a machine store of width `w`). -/
def encodeLE : Nat → Nat → List Nat
  | 0, _ => []
  | w + 1, n => n % 256 :: encodeLE w (n / 256)

/-- The value of a little-endian byte list. -/
def decodeLE : List Nat → Nat
  | [] => 0
  | b :: bs => b + 256 * decodeLE bs

/-- Bytes of a vector of `w`-byte elements laid out contiguously
(`bytemuck::cast_slice` of a `Vec`). -/
def encodeList (w : Nat) : List Nat → List Nat
  | [] => []
  | x :: xs => encodeLE w x ++ encodeList w xs

/-- Reading a contiguous byte region back as `w`-byte elements
(`Vec::from_raw_parts` of a typed allocation). -/
def decodeChunks (w : Nat) (bs : List Nat) : List Nat :=
  if h : w = 0 ∨ bs = [] then []
  else decodeLE (bs.take w) :: decodeChunks w (bs.drop w)
termination_by bs.length
decreasing_by
  push_neg at h
  simp only [List.length_drop]
  have hb : 0 < bs.length := List.length_pos.mpr h.2
  omega

/-! ## Scalar model -/

/-- Modelled from the spec: the scalar module (`krnl::scalar`) is not under
`src/`; spec §3 fixes the closed set of element types
u8, i8, u16, i16, f16, bf16, u32, i32, f32, u64, i64, f64. -/
inductive ScalarType
  | u8 | i8 | u16 | i16 | f16 | bf16 | u32 | i32 | f32 | u64 | i64 | f64
deriving DecidableEq, Repr

/-- Modelled from the spec: `size_bytes() ∈ {1,2,4,8}` (spec §3). -/
def ScalarType.size : ScalarType → Nat
  | .u8 | .i8 => 1
  | .u16 | .i16 | .f16 | .bf16 => 2
  | .u32 | .i32 | .f32 => 4
  | .u64 | .i64 | .f64 => 8

/-- Modelled from the spec: `ScalarElem` is a tagged union of one literal
value per `ScalarType`, round-tripping to/from little-endian bytes
(spec §3).  The value is carried as a natural; floats compare and are
stored by bit pattern, so their bit pattern is the carried natural. -/
structure ScalarElem where
  ty : ScalarType
  val : Nat
deriving DecidableEq, Repr

/-- `ScalarElem::as_bytes`: the little-endian bytes of the value, of
length `size_bytes()`. -/
def ScalarElem.as_bytes (e : ScalarElem) : List Nat := encodeLE e.ty.size e.val

/-! ## Root crate device / buffer model (`src/src/buffer.rs`)

The root crate's `device` module is not under `src/`; the parts of it the
buffer and kernel code touches are modelled from the spec where noted. -/

/-- Modelled from the spec: a `Device` is host (a sentinel carrying no
state) or a shared handle onto an engine carrying its index (spec §3);
the root crate's `device` module is not under `src/`. -/
inductive Device
  | host
  | device (index : Nat)
deriving DecidableEq, Repr

/-- Modelled from the spec: an engine-side device buffer with a byte
`offset`, alignment `pad` and byte length, reference-counted by the
engine (spec §3, §4.3); the engine is not under `src/`. -/
structure DeviceBuffer where
  offset : Nat
  pad : Nat
  len : Nat
deriving DecidableEq, Repr

/-- `HostSlice`: a host byte range `(ptr, len)`; modelled by the pointed-to
bytes themselves. -/
structure HostSlice where
  bytes : List Nat
deriving DecidableEq, Repr

/-- `RawSliceInner`: host byte range or device buffer reference. -/
inductive RawSliceInner
  | host (slice : HostSlice)
  | device (buffer : Option DeviceBuffer)
deriving DecidableEq, Repr

/-- `RawSliceInner::len` (bytes): host length, or `map_or(0, len)` of the
device buffer. -/
def RawSliceInner.len : RawSliceInner → Nat
  | host s => s.bytes.length
  | device b => b.elim 0 (·.len)

/-- `SliceOnDeviceError`: carries the device index. -/
structure SliceOnDeviceError where
  index : Nat
deriving DecidableEq, Repr

/-- `RawSlice`: `(device, scalar_type, backing)`. -/
structure RawSlice where
  device : Device
  scalar_type : ScalarType
  inner : RawSliceInner
deriving DecidableEq, Repr

/-- `RawSlice::len`: element count = byte length divided by scalar size. -/
def RawSlice.len (s : RawSlice) : Nat := s.inner.len / s.scalar_type.size

/-- `RawSlice::is_empty`. -/
def RawSlice.is_empty (s : RawSlice) : Bool := s.inner.len == 0

/-- `RawSlice::as_host_slice::<T>`: asserts the scalar type matches
(`none` models the assertion failing), returns the typed elements for a
host backing, and `SliceOnDeviceError(device index)` for a device
backing (`none` there models `unwrap_device` panicking on an
ill-formed slice whose backing and device tag disagree). -/
def RawSlice.as_host_slice (ty : ScalarType) (s : RawSlice) :
    Option (Except SliceOnDeviceError (List Nat)) :=
  if ty = s.scalar_type then
    match s.inner with
    | .host hs => some (.ok (decodeChunks ty.size hs.bytes))
    | .device _ =>
      match s.device with
      | .device i => some (.error ⟨i⟩)
      | .host => none
  else none

/-- `RawSlice::split_at` — the body in the source is `todo!()`, which
panics unconditionally, for every receiver and every `mid`. -/
def RawSlice.split_at (_s : RawSlice) (_mid : Nat) :
    Option (RawSlice × RawSlice) := none

/-- Modelled from the spec: `RawSlice::device_buffer` (root crate's
`device` module, not under `src/`) returns the backing engine buffer of a
device-resident slice, `None` for a host slice. -/
def RawSlice.device_buffer (s : RawSlice) : Option DeviceBuffer :=
  match s.inner with
  | .device b => b
  | .host _ => none

/-- `RawBuffer`: a `RawSlice` plus owned capacity in bytes. -/
structure RawBuffer where
  slice : RawSlice
  cap : Nat
deriving DecidableEq, Repr

/-- `RawBuffer::from_vec::<T>`: takes ownership of a host vector, records
`scalar_type = T::scalar_type()` and the bytes of the elements.  The Rust
capacity is `vec.capacity() * size` (≥ the length) and never affects the
stored or reconstructed elements; it is modelled as exactly the byte
length. -/
def RawBuffer.from_vec (ty : ScalarType) (v : List Nat) : RawBuffer :=
  { slice := { device := .host, scalar_type := ty,
               inner := .host ⟨encodeList ty.size v⟩ },
    cap := v.length * ty.size }

/-- `RawBuffer::into_vec::<T>`: asserts the scalar type matches (`none`
models the assertion failing), reconstructs the host vector from the
byte range, or fails with `SliceOnDeviceError(index)` on a device
backing. -/
def RawBuffer.into_vec (ty : ScalarType) (b : RawBuffer) :
    Option (Except SliceOnDeviceError (List Nat)) :=
  if ty = b.slice.scalar_type then
    match b.slice.inner with
    | .host hs => some (.ok (decodeChunks ty.size hs.bytes))
    | .device _ =>
      match b.slice.device with
      | .device i => some (.error ⟨i⟩)
      | .host => none
  else none

/-- `BufferBase::len` on the typed façade: element count times the scalar
size, i.e. the length in bytes. -/
def BufferBase.len (s : RawSlice) : Nat := s.len * s.scalar_type.size

/-- `BufferBase::split_at`: defers to `RawSlice::split_at` and wraps the
halves as slices. -/
def BufferBase.split_at (s : RawSlice) (mid : Nat) :
    Option (RawSlice × RawSlice) := s.split_at mid

/-- `Buffer<T>` (owned variant of the typed façade). -/
structure Buffer where
  raw : RawBuffer
deriving DecidableEq, Repr

/-- `Buffer::from_vec`. -/
def Buffer.from_vec (ty : ScalarType) (v : List Nat) : Buffer :=
  ⟨RawBuffer.from_vec ty v⟩

/-- `BufferBase::into_vec`: `into_device(Device::host())` — for a buffer
already on the host this surrenders the allocation unchanged — then
`RawBuffer::into_vec(..).unwrap()` (`none` models the unwrap or the
assertion panicking).  The device path goes through the engine (not
under `src/`) and is not modelled. -/
def Buffer.into_vec (ty : ScalarType) (b : Buffer) : Option (List Nat) :=
  match b.raw.slice.device with
  | .host =>
    match b.raw.into_vec ty with
    | some (.ok v) => some v
    | _ => none
  | .device _ => none

/-! ## Kernel-side slice model (`src/krnl-core/src/buffer.rs`)

The spirv form of the slice representations: a reference to the backing
array, an element `offset` and an element `len`.  (The host form is the
special case `offset = 0`, `len = inner.length`.)  An out-of-range
unchecked access (`index_unchecked` past the backing array) would be
undefined behaviour; it is modelled by `none` from `l[i]?`. -/

namespace KrnlCore

/-- `SliceRepr` (spirv form). -/
structure SliceRepr where
  inner : List Nat
  offset : Nat
  len : Nat
deriving DecidableEq, Repr

/-- `SliceRepr::index` (`Index` impl): bounds check against `len`, then
unchecked access at `offset + index`; out of bounds takes the panic
branch (`none`). -/
def SliceRepr.index (s : SliceRepr) (i : Nat) : Option Nat :=
  if i < s.len then s.inner[s.offset + i]? else none

/-- `UnsafeSliceRepr` (spirv form). -/
structure UnsafeSliceRepr where
  inner : List Nat
  offset : Nat
  len : Nat
deriving DecidableEq, Repr

/-- `UnsafeSliceRepr`'s immutable indexing (`UnsafeIndex`, first method):
bounds check against `len`, then unchecked access at `offset + index`;
out of bounds takes the panic branch. -/
def UnsafeSliceRepr.refIndex (u : UnsafeSliceRepr) (i : Nat) : Option Nat :=
  if i < u.len then u.inner[u.offset + i]? else none

/-- `UnsafeSliceRepr`'s mutable indexing (`UnsafeIndex`, second method):
same bounds check and access location as the immutable one. -/
def UnsafeSliceRepr.mutIndex (u : UnsafeSliceRepr) (i : Nat) : Option Nat :=
  if i < u.len then u.inner[u.offset + i]? else none

end KrnlCore

/-! ## Kernel descriptor and SPIR-V specializer
(`src/crates/krnl/src/device.rs`) -/

/-- `Features`: the five shader capability bits. -/
structure Features where
  shader_int8 : Bool
  shader_int16 : Bool
  shader_int64 : Bool
  shader_float16 : Bool
  shader_float64 : Bool
deriving DecidableEq, Repr

/-- An rspirv operand, restricted to the shapes the specializer
inspects. -/
inductive Operand
  | IdRef (id : Nat)
  | DecorationSpecId
  | LiteralInt32 (val : Nat)
  | other (tag : Nat)
deriving DecidableEq, Repr

/-- An rspirv opcode, restricted to the opcodes the specializer
inspects. -/
inductive SpvOp
  | Decorate
  | SpecConstant
  | other (tag : Nat)
deriving DecidableEq, Repr

/-- An rspirv instruction: opcode, optional result id, operands. -/
structure Instruction where
  opcode : SpvOp
  result_id : Option Nat
  operands : List Operand
deriving DecidableEq, Repr

/-- An rspirv module.  `rspirv::dr::load_words` / `assemble` are external
library code; the SPIR-V words are identified with the parsed module, so
`load_words` and `assemble` are the identity.  `annots` is the module's
annotation section. -/
structure Module where
  capabilities : List Nat
  annots : List Instruction
  types_global_values : List Instruction
  functions : List Instruction
deriving DecidableEq, Repr

/-- First pass of `KernelDesc::specialize`: collect `spec_id → result_id`
pairs from `OpDecorate … SpecId …` annotation instructions into a map
keyed by result id (`HashMap::insert`: a later insert overwrites, which
list-cons plus first-match lookup reproduces). -/
def specIds (anns : List Instruction) : List (Nat × Nat) :=
  anns.foldl
    (fun m inst =>
      if inst.opcode = .Decorate then
        match inst.operands with
        | [.IdRef id, .DecorationSpecId, .LiteralInt32 spec_id] =>
          (id, spec_id) :: m
        | _ => m
      else m)
    []

/-- `<[u8]>::copy_from_slice` into a destination of `dstLen` bytes:
panics (`none`) unless the source has exactly that length. -/
def copy_from_slice (dstLen : Nat) (src : List Nat) : Option (List Nat) :=
  if src.length = dstLen then some src else none

/-- `&l[..n]`: panics (`none`) when `n` exceeds the length. -/
def sliceTo (l : List Nat) (n : Nat) : Option (List Nat) :=
  if n ≤ l.length then some (l.take n) else none

/-- `&l[n..]`: panics (`none`) when `n` exceeds the length. -/
def sliceFrom (l : List Nat) (n : Nat) : Option (List Nat) :=
  if n ≤ l.length then some (l.drop n) else none

/-- The literal-patching arms of `KernelDesc::specialize`:
one 32-bit literal gets `value.as_bytes()` copied over it; two 32-bit
literals get `value.as_bytes()[..8]` copied over the first and
`value.as_bytes()[9..]` over the second (sic — the copies into 4-byte
literals panic when the source length differs); any other operand shape
is `unreachable!()`. -/
def patchSpecConstant (value : ScalarElem) (ops : List Operand) :
    Option (List Operand) :=
  match ops with
  | [.LiteralInt32 _] => do
    let bs ← copy_from_slice 4 value.as_bytes
    some [.LiteralInt32 (decodeLE bs)]
  | [.LiteralInt32 _, .LiteralInt32 _] => do
    let s1 ← sliceTo value.as_bytes 8
    let bs1 ← copy_from_slice 4 s1
    let s2 ← sliceFrom value.as_bytes 9
    let bs2 ← copy_from_slice 4 s2
    some [.LiteralInt32 (decodeLE bs1), .LiteralInt32 (decodeLE bs2)]
  | _ => none

/-- Second pass of `KernelDesc::specialize`, per instruction: an
`OpSpecConstant` whose result id has a `SpecId` and whose
`spec_consts[spec_id]` is provided gets its literals patched; every
other instruction is left as is. -/
def patchInst (ids : List (Nat × Nat)) (spec_consts : List ScalarElem)
    (inst : Instruction) : Option Instruction :=
  if inst.opcode = .SpecConstant then
    match inst.result_id with
    | some rid =>
      match ids.lookup rid with
      | some sid =>
        match spec_consts[sid]? with
        | some value =>
          match patchSpecConstant value inst.operands with
          | some ops => some { inst with operands := ops }
          | none => none
        | none => some inst
      | none => some inst
    | none => some inst
  else some inst

/-- The in-place loop over `types_global_values`. -/
def patchAll (ids : List (Nat × Nat)) (spec_consts : List ScalarElem) :
    List Instruction → Option (List Instruction)
  | [] => some []
  | inst :: rest =>
    match patchInst ids spec_consts inst with
    | some inst' =>
      match patchAll ids spec_consts rest with
      | some rest' => some (inst' :: rest')
      | none => none
    | none => none

/-- `SpecDesc`. -/
structure SpecDesc where
  name : String
  scalar_type : ScalarType
  thread_dim : Option Nat
deriving DecidableEq, Repr

/-- `SliceDesc`. -/
structure SliceDesc where
  name : String
  scalar_type : ScalarType
  mutable : Bool
  item : Bool
deriving DecidableEq, Repr

/-- `PushDesc`. -/
structure PushDesc where
  name : String
  scalar_type : ScalarType
deriving DecidableEq, Repr

/-- `KernelDesc` (`spirv` holds the module, see `Module`). -/
structure KernelDesc where
  name : String
  hash : Nat
  spirv : Module
  features : Features
  threads : List Nat
  safe : Bool
  spec_descs : List SpecDesc
  slice_descs : List SliceDesc
  push_descs : List PushDesc
deriving DecidableEq, Repr

/-- The while-loop in `KernelDesc::push_consts_range` that increments
`size` until it is a multiple of 4. -/
def padTo4 (s : Nat) : Nat :=
  if h : s % 4 = 0 then s else padTo4 (s + 1)
termination_by (4 - s % 4) % 4
decreasing_by omega

/-- `KernelDesc::push_consts_range`: sum of the push descriptor sizes,
padded to a multiple of 4, plus `slice_descs.len() * 2 * 4`; the final
`try_into::<u32>().unwrap()` panics (`none`) on overflow. -/
def KernelDesc.push_consts_range (d : KernelDesc) : Option Nat :=
  let sz := padTo4 ((d.push_descs.map (fun p => p.scalar_type.size)).sum)
  let sz := sz + d.slice_descs.length * 2 * 4
  if sz < 2 ^ 32 then some sz else none

/-- `KernelDesc::specialize`: load the module, collect `SpecId`s, patch
`OpSpecConstant` literals, reassemble, and return a copy of the
descriptor with the new words, empty `spec_descs` and the given
`threads`. -/
def KernelDesc.specialize (d : KernelDesc) (threads : List Nat)
    (spec_consts : List ScalarElem) : Option KernelDesc :=
  match patchAll (specIds d.spirv.annots) spec_consts
      d.spirv.types_global_values with
  | some tgv =>
    some { d with spirv := { d.spirv with types_global_values := tgv },
                  spec_descs := [], threads := threads }
  | none => none

/-- The call-shape of `specialize`, with the `&self` receiver threaded
explicitly: the call yields its result together with the state of `self`
after the call (the Rust body reads `self` and mutates only a freshly
loaded copy of the module). -/
def KernelDesc.specializeCall (d : KernelDesc) (threads : List Nat)
    (spec_consts : List ScalarElem) : Option KernelDesc × KernelDesc :=
  (d.specialize threads spec_consts, d)

/-! ## Kernel dispatch (`src/crates/krnl/src/device.rs`) -/

/-- A dispatch argument as `Kernel::dispatch` sees it: scalar type,
mutability, element length, and the engine identity of the backing
device buffer (`none` = host backing). -/
structure KernelSliceArg where
  scalar_type : ScalarType
  mutable : Bool
  len : Nat
  device_buffer : Option Nat
deriving DecidableEq, Repr

/-- Rust `u32` ceil-division step `gt / t + (gt % t != 0)`; division by
zero panics (`none`). -/
def ceilDivPanic (n t : Nat) : Option Nat :=
  if t = 0 then none else some (n / t + if n % t ≠ 0 then 1 else 0)

/-- The ceil-division loop over zipped `(global_thread, thread)`
pairs. -/
def ceilDivList : List (Nat × Nat) → Option (List Nat)
  | [] => some []
  | p :: rest =>
    match ceilDivPanic p.1 p.2 with
    | some g =>
      match ceilDivList rest with
      | some gs => some (g :: gs)
      | none => none
    | none => none

/-- `global_threads_to_groups`: `groups = [1, 1, 1]` overwritten
pointwise with `gt / t + (gt % t != 0)` over the zip of `global_threads`
and `threads` (at most three pairs); the `u32` division panics
(`none`) on a zero thread dimension. -/
def global_threads_to_groups (global_threads threads : List Nat) :
    Option (List Nat) :=
  match ceilDivList ((global_threads.zip threads).take 3) with
  | some z => some (z ++ List.replicate (3 - z.length) 1)
  | none => none

/-- A `Kernel`: its (possibly specialized) descriptor, the engine it was
built for, and the explicitly set group count, if any. -/
structure Kernel where
  desc : KernelDesc
  engine : Nat
  groups : Option (List Nat)
deriving DecidableEq, Repr

/-- The argument record handed to the engine's dispatch
(`DeviceEngineKernel::dispatch`, engine side not under `src/`). -/
structure DispatchCall where
  groups : List Nat
  buffers : List Nat
  push_bytes : List Nat
deriving DecidableEq, Repr

/-- The argument loop of `Kernel::dispatch`: each argument must be
device-backed on the kernel's engine (else an error naming the devices);
its buffer is collected; an `item` slice folds its length into the
running minimum `items`. -/
def dispatchLoop (engine : Nat) :
    List (KernelSliceArg × SliceDesc) → Option Nat →
    Except String (List Nat × Option Nat)
  | [], items => .ok ([], items)
  | (s, sd) :: rest, items =>
    match s.device_buffer with
    | none => .error "expected device, found host"
    | some e =>
      if e = engine then
        let items' := if sd.item then
            some (match items with
                  | some n => min n s.len
                  | none => s.len)
          else items
        match dispatchLoop engine rest items' with
        | .ok (bs, it) => .ok (e :: bs, it)
        | .error msg => .error msg
      else .error "buffer on a different device than the kernel"

/-- The pure items fold performed by the argument loop. -/
def itemsFold (pairs : List (KernelSliceArg × SliceDesc))
    (acc : Option Nat) : Option Nat :=
  pairs.foldl
    (fun items p =>
      if p.2.item then
        some (match items with
              | some n => min n p.1.len
              | none => p.1.len)
      else items)
    acc

/-- The lengths of the item-typed arguments. -/
def itemLens (pairs : List (KernelSliceArg × SliceDesc)) : List Nat :=
  pairs.filterMap (fun p => if p.2.item then some p.1.len else none)

/-- `Kernel::dispatch` up to the engine submission: runs the argument
loop, resolves the group count (explicit groups, or inferred from the
item length — truncated by `items as u32` — when the tail of `threads`
is all ≤ 1), packs the push bytes, and yields the engine call record.
The outer `Option` models panics: `threads[0]` on an empty `threads`,
and the `u32` division by a zero thread dimension. -/
def Kernel.dispatch (k : Kernel) (slices : List KernelSliceArg)
    (push_consts : List ScalarElem) :
    Option (Except String DispatchCall) :=
  match dispatchLoop k.engine (slices.zip k.desc.slice_descs) none with
  | .error e => some (.error e)
  | .ok (buffers, items) =>
    let push_bytes := (push_consts.zip k.desc.push_descs).foldl
      (fun acc pc => acc ++ pc.1.as_bytes) []
    match k.groups with
    | some g =>
      some (.ok { groups := g, buffers := buffers, push_bytes := push_bytes })
    | none =>
      match items with
      | some n =>
        if (k.desc.threads.drop 1).any (· > 1) then
          some (.error
            "cannot infer global_threads if threads.y > 1 or threads.z > 1")
        else
          match k.desc.threads.head? with
          | some t0 =>
            match global_threads_to_groups [n % 2 ^ 32] [t0] with
            | some groups =>
              some (.ok { groups := groups, buffers := buffers,
                          push_bytes := push_bytes })
            | none => none
          | none => none
      | none => some (.error "global_threads or groups not provided")

/-! ## Root crate dispatch builder (`src/src/kernel.rs`)

The root crate's kernel path: `DispatchBuilder` validates arguments,
computes the group count, packs push constants, and produces a
`Dispatch` whose `compute` is `None` exactly when a group dimension is
zero; `Dispatch::dispatch` submits nothing in that case.  `RawKernelInfo`
and the engine types it references live outside `src/` and are modelled
from the spec where noted. -/

namespace Root

/-- Modelled from the spec: one slice binding of `RawKernelInfo`
(spec §3 / §6 `SliceDesc`): name, scalar type, mutability, and whether it
is an elementwise ("item") participant. -/
structure SliceInfo where
  name : String
  scalar_type : ScalarType
  mutability : Bool
  elementwise : Bool
deriving DecidableEq, Repr

/-- Modelled from the spec: one push constant of `RawKernelInfo` with its
byte offset into the push block (spec §3 / §4.1). -/
structure PushInfo where
  name : String
  scalar_type : ScalarType
  offset : Nat
deriving DecidableEq, Repr

/-- Modelled from the spec: the fields of `RawKernelInfo` that
`DispatchBuilder` reads (spec §3 / §6). -/
structure KernelInfo where
  name : String
  elementwise : Bool
  threads : List Nat
  slice_infos : List SliceInfo
  push_infos : List PushInfo
  num_push_words : Nat
deriving DecidableEq, Repr

/-- `DispatchDim` (`dim` padded to three entries) tagged as
global-thread or group counts (`DispatchDimKind`). -/
inductive DispatchDimKind
  | globalThreads (dim : List Nat) (ndim : Nat)
  | groups (dim : List Nat) (ndim : Nat)
deriving DecidableEq, Repr

/-- `NamedArg`. -/
structure NamedArg (α : Type) where
  name : String
  arg : α
deriving DecidableEq, Repr

/-- `SliceArg`: an immutable or mutable raw slice argument. -/
inductive SliceArg
  | slice (raw : RawSlice)
  | sliceMut (raw : RawSlice)
deriving DecidableEq, Repr

/-- The underlying raw slice of a `SliceArg`. -/
def SliceArg.raw : SliceArg → RawSlice
  | .slice r => r
  | .sliceMut r => r

/-- `SliceArg::len`. -/
def SliceArg.len (a : SliceArg) : Nat := a.raw.len

/-- `DispatchBuilder`: requested dimensions, slice arguments and push
constants, in insertion order. -/
structure DispatchBuilder where
  dim : Option DispatchDimKind
  slices : List (NamedArg SliceArg)
  push_consts : List (NamedArg ScalarElem)
deriving DecidableEq, Repr

/-- The elementwise length: for an elementwise kernel, the length of the
argument bound to the first elementwise slice binding (0 when the
binding exists but no argument with its name was pushed, and 0 when no
binding is elementwise); `none` for a non-elementwise kernel. -/
def elementwiseLen (info : KernelInfo) (b : DispatchBuilder) : Option Nat :=
  if info.elementwise then
    match info.slice_infos.find? (·.elementwise) with
    | some si =>
      match b.slices.find? (fun s => s.name == si.name) with
      | some s => some s.arg.len
      | none => some 0
    | none => some 0
  else none

/-- The group-count resolution of `DispatchBuilder::build_unsafe`:
explicit dimensions are rejected for elementwise kernels and must match
the thread dimensionality; otherwise an elementwise kernel infers
`[ceil((elementwise_len as u32) / (threads[0] as u32)), 1, 1]` and a
non-elementwise kernel without dimensions is an error.  Every `usize`
dimension is truncated by its `as u32` cast (`% 2 ^ 32`).  The outer
`Option` models panics (`unwrap` of the elementwise length,
`threads[0]` on an empty `threads`, division by zero). -/
def resolveGroups (info : KernelInfo) (b : DispatchBuilder)
    (ewLen : Option Nat) : Option (Except String (List Nat)) :=
  match b.dim with
  | some dim =>
    if info.elementwise then
      some (.error "cannot specify dim in an elementwise kernel")
    else
      match dim with
      | .globalThreads gt ndim =>
        if ndim ≠ info.threads.length then
          some (.error "wrong global_threads dimensionality")
        else
          match ceilDivList
              (((gt.map (· % 2 ^ 32)).zip info.threads).take 3) with
          | some z => some (.ok (z ++ List.replicate (3 - z.length) 1))
          | none => none
      | .groups g ndim =>
        if ndim ≠ info.threads.length then
          some (.error "wrong groups dimensionality")
        else
          some (.ok ((g.take 3).map (· % 2 ^ 32)
            ++ List.replicate (3 - (g.take 3).length) 1))
  | none =>
    if info.elementwise then
      match ewLen with
      | some n =>
        match info.threads.head? with
        | some t =>
          match ceilDivPanic (n % 2 ^ 32) (t % 2 ^ 32) with
          | some g => some (.ok [g, 1, 1])
          | none => none
        | none => none
      | none => none
    else
      some (.error "expected global_threads or groups")

/-- The surplus-slice check: when more arguments than bindings were
pushed, the first argument without a binding of its name is an error;
if every argument has a binding the code reaches `unreachable!()`
(`none`). -/
def checkUnexpected (b : DispatchBuilder) (infos : List SliceInfo) :
    Option (Except String Unit) :=
  if infos.length < b.slices.length then
    match b.slices.find?
        (fun s => (infos.find? (fun i => i.name == s.name)).isNone) with
    | some _ => some (.error "unexpected slice")
    | none => none
  else some (.ok ())

/-- Writing `src` over `dst[off .. off + src.length]`; out of range
panics (`none`). -/
def writeBytes (dst : List Nat) (off : Nat) (src : List Nat) :
    Option (List Nat) :=
  if off + src.length ≤ dst.length then
    some (dst.take off ++ src ++ dst.drop (off + src.length))
  else none

/-- The per-slice `(offset << 8) | pad` word (all in `u32` arithmetic,
offsets and pads divided by the element width). -/
def offsetPad (width : Nat) (buf : DeviceBuffer) : Nat :=
  let offset := (buf.offset % 2 ^ 32) / width
  let pad := (buf.pad % 2 ^ 32) / width
  ((offset <<< 8) % 2 ^ 32) ||| pad

/-- The slice loop of `build_unsafe`: each binding must have an argument
of its name with the right mutability; an elementwise binding's argument
must have exactly the elementwise length; an empty argument is an error
unless some group dimension is zero; a non-empty argument contributes
its buffer and its `(offset << 8) | pad` word at the offset of the
`__krnl…` push constant named after it.  Threads the push byte array;
returns it with the collected buffers. -/
def processSlices (groups : List Nat) (ewLen : Option Nat)
    (b : DispatchBuilder) (push_infos : List PushInfo) :
    List SliceInfo → List Nat →
    Option (Except String (List Nat × List DeviceBuffer))
  | [], bytes => some (.ok (bytes, []))
  | si :: rest, bytes =>
    match b.slices.find? (fun s => s.name == si.name) with
    | none => some (.error "expected slice")
    | some s =>
      let mutableOk : Option (Except String RawSlice) :=
        match s.arg with
        | .slice raw =>
          if si.mutability then some (.error "expected slice_mut") else
            some (.ok raw)
        | .sliceMut raw =>
          if ¬ si.mutability then some (.error "expected slice") else
            some (.ok raw)
      match mutableOk with
      | none => none
      | some (.error e) => some (.error e)
      | some (.ok raw) =>
        let lenOk : Option (Except String Unit) :=
          if si.elementwise then
            match ewLen with
            | some n =>
              if raw.len ≠ n then
                some (.error "elementwise slice length mismatch")
              else some (.ok ())
            | none => none
          else some (.ok ())
        match lenOk with
        | none => none
        | some (.error e) => some (.error e)
        | some (.ok ()) =>
          if raw.is_empty then
            if ¬ groups.any (· == 0) then some (.error "slice is empty")
            else processSlices groups ewLen b push_infos rest bytes
          else
            match raw.device_buffer with
            | none => none
            | some buf =>
              let op := offsetPad si.scalar_type.size buf
              match push_infos.find?
                  (fun x => x.name.startsWith "__krnl"
                    && x.name.endsWith si.name) with
              | none => none
              | some pi =>
                match writeBytes bytes pi.offset (encodeLE 4 op) with
                | none => none
                | some bytes' =>
                  match processSlices groups ewLen b push_infos rest bytes' with
                  | some (.ok (bs, bufs)) => some (.ok (bs, buf :: bufs))
                  | other => other

/-- The push-writing loop: each pushed constant must name a push binding
of matching scalar type; `write_scalar_elem_to_bytes` handles only
`U32` values (every other variant is `todo!()`, `none`). -/
def writePush (push_infos : List PushInfo) :
    List (NamedArg ScalarElem) → List Nat →
    Option (Except String (List Nat))
  | [], bytes => some (.ok bytes)
  | p :: rest, bytes =>
    match push_infos.find? (fun i => i.name == p.name) with
    | some pi =>
      if p.arg.ty ≠ pi.scalar_type then
        some (.error "push scalar type mismatch")
      else
        match p.arg.ty with
        | .u32 =>
          match writeBytes bytes pi.offset (encodeLE 4 p.arg.val) with
          | some bytes' => writePush push_infos rest bytes'
          | none => none
        | _ => none
    | none => some (.error "unexpected push")

/-- The push phase: when more constants than non-`__krnl` bindings were
pushed, the first binding without a constant of its name is an error and
a fully matched surplus reaches `unreachable!()`; otherwise the pushed
constants are written. -/
def pushPhase (push_infos : List PushInfo)
    (pcs : List (NamedArg ScalarElem)) (bytes : List Nat) :
    Option (Except String (List Nat)) :=
  let num := (push_infos.filter
    (fun i => ¬ i.name.startsWith "__krnl")).length
  if num < pcs.length then
    match push_infos.find?
        (fun i => (pcs.find? (fun p => p.name == i.name)).isNone) with
    | some _ => some (.error "expected push")
    | none => none
  else writePush push_infos pcs bytes

/-- `Compute`: a ready-to-submit compute pass. -/
structure Compute where
  groups : List Nat
  buffers : List DeviceBuffer
  push_consts : List Nat
deriving DecidableEq, Repr

/-- `Dispatch`: `compute` is `None` when the pass was elided. -/
structure Dispatch where
  compute : Option Compute
deriving DecidableEq, Repr

/-- `DispatchBuilder::build_unsafe`: resolve the groups, check the
argument lists, pack the push block, and elide the compute pass exactly
when some group dimension is zero. -/
def buildDispatch (info : KernelInfo) (b : DispatchBuilder) :
    Option (Except String Dispatch) :=
  match resolveGroups info b (elementwiseLen info b) with
  | none => none
  | some (.error e) => some (.error e)
  | some (.ok groups) =>
    match checkUnexpected b info.slice_infos with
    | none => none
    | some (.error e) => some (.error e)
    | some (.ok ()) =>
      match processSlices groups (elementwiseLen info b) b info.push_infos
          info.slice_infos (List.replicate (4 * info.num_push_words) 0) with
      | none => none
      | some (.error e) => some (.error e)
      | some (.ok (bytes1, buffers)) =>
        match pushPhase info.push_infos b.push_consts bytes1 with
        | none => none
        | some (.error e) => some (.error e)
        | some (.ok bytes2) =>
          some (.ok ⟨if groups.any (· == 0) then none
            else some { groups := groups, buffers := buffers,
                        push_consts := bytes2 }⟩)

/-- `Dispatch::dispatch`: submits the compute pass to the engine when
present (one submission, modelled as a count; `DeviceBase::compute` is
engine code not under `src/`) and is a successful no-op otherwise. -/
def Dispatch.run (d : Dispatch) : Except String Unit × Nat :=
  match d.compute with
  | none => (.ok (), 0)
  | some _ => (.ok (), 1)

end Root

/-! ## Concrete instances used to exercise the theorems -/

/-- A kernel-side slice view of two elements at offset 1 of a three
element backing array. -/
def sW : KrnlCore.SliceRepr := ⟨[5, 6, 7], 1, 2⟩

/-- The unchecked counterpart of `sW`. -/
def uW : KrnlCore.UnsafeSliceRepr := ⟨[5, 6, 7], 1, 2⟩

/-- A minimal module with one 32-bit `OpSpecConstant` carrying
`SpecId 0`. -/
def specDescW : KernelDesc :=
  { name := "fill", hash := 42,
    spirv :=
      { capabilities := [1],
        annots := [⟨.Decorate, none,
          [.IdRef 3, .DecorationSpecId, .LiteralInt32 0]⟩],
        types_global_values := [⟨.SpecConstant, some 3, [.LiteralInt32 1]⟩],
        functions := [⟨.other 0, none, []⟩] },
    features := ⟨false, false, false, false, false⟩,
    threads := [256], safe := true,
    spec_descs := [⟨"n", .u32, none⟩],
    slice_descs := [], push_descs := [] }

/-- `specDescW` after specializing its constant to the u32 value 7 with
`threads = [64]`. -/
def specOutW : KernelDesc :=
  { specDescW with
    spirv := { specDescW.spirv with
      types_global_values := [⟨.SpecConstant, some 3, [.LiteralInt32 7]⟩] },
    spec_descs := [], threads := [64] }

/-- `specDescW` with a two-literal (64-bit) spec constant instead. -/
def specU64DescW : KernelDesc :=
  { specDescW with
    spirv := { specDescW.spirv with
      types_global_values :=
        [⟨.SpecConstant, some 3, [.LiteralInt32 0, .LiteralInt32 0]⟩] },
    spec_descs := [⟨"n", .u64, none⟩] }

/-- A descriptor with pushes of 4 and 2 bytes and two slice bindings. -/
def descPushW : KernelDesc :=
  { specDescW with
    spec_descs := [],
    slice_descs := [⟨"x", .f32, false, true⟩, ⟨"y", .f32, true, true⟩],
    push_descs := [⟨"alpha", .f32⟩, ⟨"n", .u16⟩] }

/-- An elementwise kernel with `threads = [2]` and one item slice. -/
def kernelW : Kernel :=
  { desc := { specDescW with
      threads := [2], spec_descs := [],
      slice_descs := [⟨"x", .f32, false, true⟩], push_descs := [] },
    engine := 0, groups := none }

/-- A device argument of five f32 elements on engine 0. -/
def argW : KernelSliceArg := ⟨.f32, false, 5, some 0⟩

/-- `kernelW` with `threads = [1]`. -/
def kernelBigW : Kernel :=
  { kernelW with desc := { kernelW.desc with threads := [1] } }

/-- A device argument of `2 ^ 32` f32 elements on engine 0. -/
def argBigW : KernelSliceArg := ⟨.f32, false, 2 ^ 32, some 0⟩

/-- A non-elementwise kernel info with `threads = [1, 1, 1]` and no
bindings. -/
def infoW : Root.KernelInfo := ⟨"k", false, [1, 1, 1], [], [], 0⟩

/-- A builder requesting explicit groups `[0, 1, 1]`. -/
def builderW : Root.DispatchBuilder := ⟨some (.groups [0, 1, 1] 3), [], []⟩

/-! # Theorems -/

/-! ## Byte-encoding lemmas -/

theorem encodeLE_length (w n : Nat) : (encodeLE w n).length = w := by
  induction w generalizing n with
  | zero => rfl
  | succ w ih => simp [encodeLE, ih]

theorem decodeLE_encodeLE (w n : Nat) (h : n < 256 ^ w) :
    decodeLE (encodeLE w n) = n := by
  induction w generalizing n with
  | zero =>
    have h0 : n = 0 := by
      have := h
      simp only [pow_zero] at this
      omega
    simp [h0, encodeLE, decodeLE]
  | succ w ih =>
    have hdiv : n / 256 < 256 ^ w := by
      apply Nat.div_lt_of_lt_mul
      calc n < 256 ^ (w + 1) := h
        _ = 256 * 256 ^ w := by ring
    simp only [encodeLE, decodeLE, ih _ hdiv]
    omega

theorem encodeList_length (w : Nat) (v : List Nat) :
    (encodeList w v).length = v.length * w := by
  induction v with
  | nil => simp [encodeList]
  | cons x xs ih => simp [encodeList, encodeLE_length, ih]; ring

theorem decodeChunks_nil (w : Nat) : decodeChunks w [] = [] := by
  rw [decodeChunks]; simp

theorem decodeChunks_encode_cons (w x : Nat) (hw : 0 < w)
    (hx : x < 256 ^ w) (r : List Nat) :
    decodeChunks w (encodeLE w x ++ r) = x :: decodeChunks w r := by
  have hne : encodeLE w x ++ r ≠ [] := by
    intro hc
    have := congrArg List.length hc
    simp [encodeLE_length] at this
    omega
  rw [decodeChunks, dif_neg (by push_neg; exact ⟨by omega, hne⟩)]
  rw [List.take_left' (encodeLE_length w x),
      List.drop_left' (encodeLE_length w x),
      decodeLE_encodeLE w x hx]

theorem decodeChunks_encodeList (w : Nat) (hw : 0 < w) (v : List Nat)
    (hv : ∀ x ∈ v, x < 256 ^ w) :
    decodeChunks w (encodeList w v) = v := by
  induction v with
  | nil => simp [encodeList, decodeChunks_nil]
  | cons x xs ih =>
    rw [encodeList,
        decodeChunks_encode_cons w x hw (hv x (by simp)) (encodeList w xs),
        ih (fun y hy => hv y (by simp [hy]))]

theorem ScalarType.size_pos (ty : ScalarType) : 0 < ty.size := by
  cases ty <;> decide

/-! ## Buffer round-trip, host access, lengths, split (root crate) -/

/-- C3: for every element type and every host vector `v`,
`Buffer::from_vec(v)` followed by `into_vec()` succeeds and returns a
vector equal to `v` (same length and elements).  The hypothesis is the
Rust type invariant that each element fits the element width. -/
theorem from_vec_into_vec_id (ty : ScalarType) (v : List Nat)
    (hv : ∀ x ∈ v, x < 256 ^ ty.size) :
    Buffer.into_vec ty (Buffer.from_vec ty v) = some v := by
  unfold Buffer.into_vec Buffer.from_vec RawBuffer.from_vec RawBuffer.into_vec
  simp [decodeChunks_encodeList ty.size (ScalarType.size_pos ty) v hv]

theorem from_vec_into_vec_id_case :
    Buffer.into_vec .u32 (Buffer.from_vec .u32 [1, 2, 3, 4]) =
      some [1, 2, 3, 4] :=
  from_vec_into_vec_id .u32 [1, 2, 3, 4] (by decide)

/-- C7: a slice backed by a device with index `i` fails `as_host_slice`
with `SliceOnDeviceError(i)` (no panic, nothing modified — the embedding
is pure); a host-backed slice yields its elements. -/
theorem as_host_slice_spec (s : RawSlice) (ty : ScalarType)
    (hty : ty = s.scalar_type) :
    (∀ i buf, s.device = .device i → s.inner = .device buf →
      s.as_host_slice ty = some (.error ⟨i⟩)) ∧
    (∀ hs, s.inner = .host hs →
      s.as_host_slice ty = some (.ok (decodeChunks ty.size hs.bytes))) := by
  constructor
  · intro i buf hdev hinner
    simp [RawSlice.as_host_slice, hty, hinner, hdev]
  · intro hs hinner
    simp [RawSlice.as_host_slice, hty, hinner]

theorem as_host_slice_case :
    RawSlice.as_host_slice .f32 ⟨.device 0, .f32, .device none⟩ =
      some (.error ⟨0⟩) :=
  (as_host_slice_spec ⟨.device 0, .f32, .device none⟩ .f32 rfl).1 0 none rfl rfl

/-- C10: on the typed façade built by `from_vec`, `BufferBase::len` is
the length in bytes (element count times the scalar size) while
`RawSlice::len` is the element count (byte length divided by the scalar
size) — and this relation holds for every raw slice. -/
theorem len_bytes_vs_elems (ty : ScalarType) (v : List Nat) :
    BufferBase.len (Buffer.from_vec ty v).raw.slice = v.length * ty.size ∧
    (Buffer.from_vec ty v).raw.slice.len = v.length ∧
    ∀ s : RawSlice,
      BufferBase.len s = s.len * s.scalar_type.size ∧
      s.len = s.inner.len / s.scalar_type.size := by
  have hlen : (Buffer.from_vec ty v).raw.slice.len = v.length := by
    simp [Buffer.from_vec, RawBuffer.from_vec, RawSlice.len,
      RawSliceInner.len, encodeList_length,
      Nat.mul_div_cancel _ (ScalarType.size_pos ty)]
  refine ⟨?_, hlen, fun s => ⟨rfl, rfl⟩⟩
  rw [BufferBase.len, hlen]
  rfl

/-- C2: `split_at` — on every buffer, slice and index, including
`mid = 0` and `mid = len`, the source's `RawSlice::split_at` body is
`todo!()` and panics; no pair of halves is ever produced. -/
theorem split_at_stub_panics (s : RawSlice) (mid : Nat) :
    BufferBase.split_at s mid = none ∧ s.split_at mid = none :=
  ⟨rfl, rfl⟩

/-! ## Kernel-side bounds-checked indexing -/

/-- C9: for slice views whose window fits the backing array
(`offset + len ≤ storage length`), the checked `Index` impl and both
`UnsafeIndex` methods return the element at the accessed position when
`index < len` — a position strictly inside the backing storage — and
take the panic branch when `index ≥ len`; no access past the end of the
underlying storage occurs for any index. -/
theorem safe_index_spec (s : KrnlCore.SliceRepr)
    (u : KrnlCore.UnsafeSliceRepr) (i : Nat)
    (hs : s.offset + s.len ≤ s.inner.length)
    (hu : u.offset + u.len ≤ u.inner.length) :
    (i < s.len → s.offset + i < s.inner.length ∧
      s.index i = s.inner[s.offset + i]? ∧ (s.index i).isSome = true) ∧
    (s.len ≤ i → s.index i = none) ∧
    (i < u.len → u.offset + i < u.inner.length ∧
      u.refIndex i = u.inner[u.offset + i]? ∧
      (u.refIndex i).isSome = true ∧ u.mutIndex i = u.refIndex i) ∧
    (u.len ≤ i → u.refIndex i = none ∧ u.mutIndex i = none) := by
  refine ⟨fun hi => ?_, fun hi => ?_, fun hi => ?_, fun hi => ?_⟩
  · have hin : s.offset + i < s.inner.length := by omega
    refine ⟨hin, by simp [KrnlCore.SliceRepr.index, hi], ?_⟩
    simp [KrnlCore.SliceRepr.index, hi, List.getElem?_eq_getElem hin]
  · simp [KrnlCore.SliceRepr.index, Nat.not_lt.mpr hi]
  · have hin : u.offset + i < u.inner.length := by omega
    refine ⟨hin, by simp [KrnlCore.UnsafeSliceRepr.refIndex, hi], ?_, ?_⟩
    · simp [KrnlCore.UnsafeSliceRepr.refIndex, hi,
        List.getElem?_eq_getElem hin]
    · simp [KrnlCore.UnsafeSliceRepr.refIndex,
        KrnlCore.UnsafeSliceRepr.mutIndex]
  · constructor
    · simp [KrnlCore.UnsafeSliceRepr.refIndex, Nat.not_lt.mpr hi]
    · simp [KrnlCore.UnsafeSliceRepr.mutIndex, Nat.not_lt.mpr hi]

theorem safe_index_case :
    sW.offset + 1 < sW.inner.length ∧
    sW.index 1 = sW.inner[sW.offset + 1]? ∧ (sW.index 1).isSome = true :=
  (safe_index_spec sW uW 1 (by decide) (by decide)).1 (by decide)

/-! ## Push-constant range -/

theorem padTo4_eq (s : Nat) : padTo4 s = (s + 3) / 4 * 4 := by
  rw [padTo4]
  split
  · omega
  · rw [padTo4]
    split
    · omega
    · rw [padTo4]
      split
      · omega
      · rw [padTo4]
        split
        · omega
        · omega

/-- C6: the total push-constant size equals the sum of the push
descriptor sizes rounded up to the next multiple of 4, plus 8 bytes per
slice descriptor. -/
theorem push_consts_range_spec (d : KernelDesc) (r : Nat)
    (h : d.push_consts_range = some r) :
    r = ((d.push_descs.map (fun p => p.scalar_type.size)).sum + 3) / 4 * 4
      + 8 * d.slice_descs.length := by
  unfold KernelDesc.push_consts_range at h
  dsimp only at h
  split at h
  · have hr := Option.some.inj h
    rw [padTo4_eq] at hr
    omega
  · exact absurd h (by simp)

theorem push_consts_range_case :
    (24 : Nat) =
      ((descPushW.push_descs.map (fun p => p.scalar_type.size)).sum + 3)
        / 4 * 4 + 8 * descPushW.slice_descs.length :=
  push_consts_range_spec descPushW 24
    (by simp [KernelDesc.push_consts_range, descPushW, specDescW,
          ScalarType.size, padTo4])

/-! ## Specializer: the two-literal (64-bit) patch -/

/-- C1 (evaluation at the failing input): specializing a descriptor
whose `OpSpecConstant` has two 32-bit literals with a provided 64-bit
value panics — `value.as_bytes()[..8]` (8 bytes) is copied into the
4-byte first literal, and `value.as_bytes()[9..]` indexes past the
8-byte value — so no literal is ever overwritten with the intended
bytes 0..4 / 4..8. -/
theorem specialize_u64_two_literal_panics :
    KernelDesc.specialize specU64DescW [1] [⟨.u64, 5⟩] = none ∧
    patchSpecConstant ⟨.u64, 5⟩ [.LiteralInt32 0, .LiteralInt32 0] = none :=
  ⟨rfl, rfl⟩

/-! ## Specializer purity and structure preservation -/

theorem patchInst_struct (ids : List (Nat × Nat)) (v : List ScalarElem)
    (inst inst' : Instruction) (h : patchInst ids v inst = some inst') :
    inst'.opcode = inst.opcode ∧ inst'.result_id = inst.result_id := by
  unfold patchInst at h
  split at h
  · split at h
    · split at h
      · split at h
        · split at h
          · cases h; exact ⟨rfl, rfl⟩
          · exact absurd h (by simp)
        · cases h; exact ⟨rfl, rfl⟩
      · cases h; exact ⟨rfl, rfl⟩
    · cases h; exact ⟨rfl, rfl⟩
  · cases h; exact ⟨rfl, rfl⟩

theorem patchAll_struct (ids : List (Nat × Nat)) (v : List ScalarElem) :
    ∀ l l' : List Instruction, patchAll ids v l = some l' →
      l'.length = l.length ∧ ∀ i : Nat,
        l'[i]?.map Instruction.opcode = l[i]?.map Instruction.opcode ∧
        l'[i]?.map Instruction.result_id = l[i]?.map Instruction.result_id := by
  intro l
  induction l with
  | nil =>
    intro l' h
    cases h
    exact ⟨rfl, fun i => ⟨rfl, rfl⟩⟩
  | cons x xs ih =>
    intro l' h
    unfold patchAll at h
    cases hx : patchInst ids v x with
    | none => rw [hx] at h; exact absurd h (by simp)
    | some x' =>
      rw [hx] at h
      cases hrest : patchAll ids v xs with
      | none => rw [hrest] at h; exact absurd h (by simp)
      | some rest' =>
        rw [hrest] at h
        cases h
        obtain ⟨hlen, hidx⟩ := ih rest' hrest
        obtain ⟨hop, hrid⟩ := patchInst_struct ids v x x' hx
        refine ⟨by simp [hlen], fun i => ?_⟩
        cases i with
        | zero => simp [hop, hrid]
        | succ j => simpa using hidx j

/-- C8: the specializer is pure and deterministic — the call on equal
descriptors, threads and values yields the same result and leaves the
receiver exactly as it was — and the output module has the same
capabilities, annotation section, functions, and instruction structure
(per-instruction opcode and result id) as the input, differing only in
patched constant literals; the non-module fields are copied, with
`spec_descs` emptied and `threads` replaced. -/
theorem specialize_pure (d : KernelDesc) (t : List Nat)
    (v : List ScalarElem) (r : KernelDesc)
    (h : d.specialize t v = some r) :
    (∀ d' t' v', d' = d → t' = t → v' = v →
      KernelDesc.specializeCall d' t' v' = (some r, d)) ∧
    r.name = d.name ∧ r.hash = d.hash ∧ r.features = d.features ∧
    r.safe = d.safe ∧ r.slice_descs = d.slice_descs ∧
    r.push_descs = d.push_descs ∧ r.spec_descs = [] ∧ r.threads = t ∧
    r.spirv.capabilities = d.spirv.capabilities ∧
    r.spirv.annots = d.spirv.annots ∧
    r.spirv.functions = d.spirv.functions ∧
    r.spirv.types_global_values.length
      = d.spirv.types_global_values.length ∧
    ∀ i : Nat,
      r.spirv.types_global_values[i]?.map Instruction.opcode
        = d.spirv.types_global_values[i]?.map Instruction.opcode ∧
      r.spirv.types_global_values[i]?.map Instruction.result_id
        = d.spirv.types_global_values[i]?.map Instruction.result_id := by
  have hcall : ∀ d' t' v', d' = d → t' = t → v' = v →
      KernelDesc.specializeCall d' t' v' = (some r, d) := by
    intro d' t' v' h1 h2 h3
    subst h1; subst h2; subst h3
    unfold KernelDesc.specializeCall
    rw [h]
  unfold KernelDesc.specialize at h
  cases hp : patchAll (specIds d.spirv.annots) v d.spirv.types_global_values with
  | none => rw [hp] at h; simp at h
  | some tgv =>
    rw [hp] at h
    obtain ⟨hlen, hidx⟩ :=
      patchAll_struct (specIds d.spirv.annots) v
        d.spirv.types_global_values tgv hp
    cases h
    exact ⟨hcall, rfl, rfl, rfl, rfl, rfl, rfl, rfl, rfl, rfl, rfl, rfl,
      hlen, hidx⟩

theorem specialize_pure_case :
    specOutW.spirv.annots = specDescW.spirv.annots ∧
    specOutW.spirv.capabilities = specDescW.spirv.capabilities :=
  ⟨(specialize_pure specDescW [64] [⟨.u32, 7⟩] specOutW (by rfl)).2.2.2.2.2.2.2.2.2.2.1,
   (specialize_pure specDescW [64] [⟨.u32, 7⟩] specOutW (by rfl)).2.2.2.2.2.2.2.2.2.1⟩

/-! ## Elementwise inference in `Kernel::dispatch` -/

theorem dispatchLoop_ok (engine : Nat) :
    ∀ (pairs : List (KernelSliceArg × SliceDesc)) (acc : Option Nat),
      (∀ p ∈ pairs, p.1.device_buffer = some engine) →
      dispatchLoop engine pairs acc =
        .ok (pairs.map (fun _ => engine), itemsFold pairs acc) := by
  intro pairs
  induction pairs with
  | nil => intro acc _; rfl
  | cons p rest ih =>
    intro acc h
    obtain ⟨s, sd⟩ := p
    have hd : s.device_buffer = some engine := h (s, sd) (by simp)
    simp only [dispatchLoop, hd, if_pos rfl]
    rw [ih _ (fun q hq => h q (by simp [hq]))]
    simp [itemsFold]

theorem itemsFold_cons (p : KernelSliceArg × SliceDesc)
    (pairs : List (KernelSliceArg × SliceDesc)) (acc : Option Nat) :
    itemsFold (p :: pairs) acc =
      itemsFold pairs
        (if p.2.item then
          some (match acc with
                | some n => min n p.1.len
                | none => p.1.len)
        else acc) := rfl

theorem itemLens_cons (p : KernelSliceArg × SliceDesc)
    (pairs : List (KernelSliceArg × SliceDesc)) :
    itemLens (p :: pairs) =
      if p.2.item then p.1.len :: itemLens pairs else itemLens pairs := by
  by_cases hi : p.2.item <;> simp [itemLens, hi]

theorem itemsFold_some (pairs : List (KernelSliceArg × SliceDesc)) :
    ∀ m : Nat, itemsFold pairs (some m)
      = some (List.foldl min m (itemLens pairs)) := by
  induction pairs with
  | nil => intro m; rfl
  | cons p rest ih =>
    intro m
    rw [itemsFold_cons, itemLens_cons]
    by_cases hi : p.2.item
    · rw [if_pos hi, if_pos hi, ih (min m p.1.len), List.foldl_cons]
    · rw [if_neg hi, if_neg hi, ih m]

theorem itemsFold_none (pairs : List (KernelSliceArg × SliceDesc)) :
    itemsFold pairs none = (itemLens pairs).min? := by
  induction pairs with
  | nil => rfl
  | cons p rest ih =>
    rw [itemsFold_cons, itemLens_cons]
    by_cases hi : p.2.item
    · rw [if_pos hi, if_pos hi, itemsFold_some rest p.1.len,
        List.min?_cons']
    · rw [if_neg hi, if_neg hi, ih]

/-- C4 (amended): when no explicit groups or global threads were given
and at least one argument slice is item-typed (so the items fold
produced a value `n`), `n` is the minimum of the lengths of all item
slices; the dispatch fails when some entry of the tail of `threads`
exceeds 1, and otherwise submits with `global_threads` inferred as the
one-dimensional `[n as u32]` (the item length truncated to 32 bits by
`items as u32`), which coincides with `[n]` whenever `n < 2 ^ 32`. -/
theorem dispatch_infer_item_spec (k : Kernel)
    (slices : List KernelSliceArg) (pcs : List ScalarElem)
    (t0 n : Nat) (ts : List Nat)
    (hg : k.groups = none)
    (ht : k.desc.threads = t0 :: ts)
    (ht0 : 0 < t0)
    (hlen : slices.length = k.desc.slice_descs.length)
    (hdev : ∀ s ∈ slices, s.device_buffer = some k.engine)
    (hitems : itemsFold (slices.zip k.desc.slice_descs) none = some n) :
    (n ∈ itemLens (slices.zip k.desc.slice_descs) ∧
      ∀ l ∈ itemLens (slices.zip k.desc.slice_descs), n ≤ l) ∧
    (ts.any (· > 1) = true →
      k.dispatch slices pcs = some (.error
        "cannot infer global_threads if threads.y > 1 or threads.z > 1")) ∧
    (ts.any (· > 1) = false →
      ∃ gs, global_threads_to_groups [n % 2 ^ 32] [t0] = some gs ∧
        k.dispatch slices pcs =
          some (.ok { groups := gs,
                      buffers := slices.map (fun _ => k.engine),
                      push_bytes := (pcs.zip k.desc.push_descs).foldl
                        (fun acc pc => acc ++ pc.1.as_bytes) [] })) ∧
    (n < 2 ^ 32 →
      global_threads_to_groups [n % 2 ^ 32] [t0]
        = global_threads_to_groups [n] [t0]) := by
  have hdev' : ∀ p ∈ slices.zip k.desc.slice_descs,
      p.1.device_buffer = some k.engine :=
    fun p hp => hdev p.1 (List.of_mem_zip hp).1
  have hloop := dispatchLoop_ok k.engine (slices.zip k.desc.slice_descs)
    none hdev'
  have hmin : (itemLens (slices.zip k.desc.slice_descs)).min? = some n := by
    rw [← itemsFold_none]; exact hitems
  have hdiv : ceilDivPanic (n % 2 ^ 32) t0 =
      some ((n % 2 ^ 32) / t0 +
        if (n % 2 ^ 32) % t0 ≠ 0 then 1 else 0) := by
    unfold ceilDivPanic
    rw [if_neg (by omega)]
  have hgtg : global_threads_to_groups [n % 2 ^ 32] [t0] =
      some [(n % 2 ^ 32) / t0 +
        (if (n % 2 ^ 32) % t0 ≠ 0 then 1 else 0), 1, 1] := by
    unfold global_threads_to_groups
    rw [show ([n % 2 ^ 32].zip [t0]).take 3 = [(n % 2 ^ 32, t0)] from rfl]
    unfold ceilDivList
    rw [hdiv]
    simp [ceilDivList]
  refine ⟨⟨?_, ?_⟩, ?_, ?_, ?_⟩
  · exact List.min?_mem (fun a b => by omega) hmin
  · intro l hl
    exact (List.le_min?_iff (fun a b c => by omega) hmin).mp (le_refl n) l hl
  · intro hany
    unfold Kernel.dispatch
    rw [hloop, hitems, hg, ht]
    simp [hany]
  · intro hany
    have hle : slices.length ≤ k.desc.slice_descs.length := le_of_eq hlen
    refine ⟨_, hgtg, ?_⟩
    have hgtg' := hgtg
    simp at hgtg'
    unfold Kernel.dispatch
    rw [hloop, hitems, hg, ht]
    simp [hany, hle, hgtg']
  · intro hlt
    rw [Nat.mod_eq_of_lt hlt]

theorem dispatch_infer_item_case :
    ∃ gs, global_threads_to_groups [5 % 2 ^ 32] [2] = some gs ∧
      Kernel.dispatch kernelW [argW] [] =
        some (.ok { groups := gs,
                    buffers := [argW].map (fun _ => kernelW.engine),
                    push_bytes := (([] : List ScalarElem).zip
                      kernelW.desc.push_descs).foldl
                      (fun acc pc => acc ++ pc.1.as_bytes) [] }) :=
  (dispatch_infer_item_spec kernelW [argW] [] 2 5 [] rfl rfl (by decide)
    rfl
    (by intro s hs
        rw [List.mem_singleton.mp hs]
        rfl)
    (by rfl)).2.2.1 (by rfl)

/-- C4 (counterexample to the claim as stated): with `threads = [1]`
and a single item slice of `2 ^ 32` elements, the program infers
groups `[0, 1, 1]` — the item length wraps to 0 under `items as u32` —
whereas inferring `global_threads = [item_len]` as claimed would give
`[2 ^ 32, 1, 1]` groups. -/
theorem dispatch_infer_item_cex :
    Kernel.dispatch kernelBigW [argBigW] [] =
      some (.ok ⟨[0, 1, 1], [0], []⟩) ∧
    global_threads_to_groups [2 ^ 32] [1] = some [2 ^ 32, 1, 1] ∧
    ([0, 1, 1] : List Nat) ≠ [2 ^ 32, 1, 1] :=
  ⟨rfl, rfl, by decide⟩

/-! ## Dispatch elision in the root crate builder -/

/-- C5: a built dispatch whose inferred elementwise length is 0, or
whose resolved group count has a zero dimension, carries no compute
pass: dispatching it submits nothing and returns success. -/
theorem dispatch_elided (info : Root.KernelInfo) (b : Root.DispatchBuilder)
    (d : Root.Dispatch) (gs : List Nat)
    (hb : Root.buildDispatch info b = some (.ok d))
    (hg : Root.resolveGroups info b (Root.elementwiseLen info b)
      = some (.ok gs))
    (hz : 0 ∈ gs ∨ (info.elementwise = true ∧ b.dim = none ∧
      Root.elementwiseLen info b = some 0)) :
    d.compute = none ∧ d.run = (.ok (), 0) := by
  have hzero : 0 ∈ gs := by
    rcases hz with h | ⟨he, hdim, hlen⟩
    · exact h
    · unfold Root.resolveGroups at hg
      simp only [hdim, hlen, he, if_true] at hg
      cases hh : info.threads.head? with
      | none => simp [hh] at hg
      | some t =>
        simp only [hh] at hg
        unfold ceilDivPanic at hg
        by_cases ht0 : t % 2 ^ 32 = 0
        · rw [if_pos ht0] at hg
          simp at hg
        · rw [if_neg ht0] at hg
          simp only [Nat.zero_mod, Nat.zero_div, ne_eq,
            not_true_eq_false, if_false, Nat.zero_add, Nat.add_zero,
            Option.some.injEq, Except.ok.injEq] at hg
          rw [← hg]
          simp
  unfold Root.buildDispatch at hb
  simp only [hg] at hb
  cases hc : Root.checkUnexpected b info.slice_infos with
  | none => simp [hc] at hb
  | some c =>
    simp only [hc] at hb
    cases c with
    | error e => simp at hb
    | ok u =>
      cases u
      cases hp : Root.processSlices gs (Root.elementwiseLen info b) b
          info.push_infos info.slice_infos
          (List.replicate (4 * info.num_push_words) 0) with
      | none => simp [hp] at hb
      | some pr =>
        simp only [hp] at hb
        cases pr with
        | error e => simp at hb
        | ok bb =>
          obtain ⟨bytes1, buffers⟩ := bb
          cases hq : Root.pushPhase info.push_infos b.push_consts bytes1 with
          | none => simp [hq] at hb
          | some q =>
            simp only [hq] at hb
            cases q with
            | error e => simp at hb
            | ok bytes2 =>
              simp only [Option.some.injEq, Except.ok.injEq] at hb
              have hany : gs.any (· == 0) = true := by
                rw [List.any_eq_true]
                exact ⟨0, hzero, by simp⟩
              rw [← hb]
              constructor
              · simp [hany]
              · simp [Root.Dispatch.run, hany]

theorem dispatch_elided_case :
    (Root.Dispatch.mk none).compute = none ∧
    (Root.Dispatch.mk none).run = (.ok (), 0) :=
  dispatch_elided infoW builderW ⟨none⟩ [0, 1, 1] (by rfl) (by rfl)
    (Or.inl (by decide))

end Krnl
